import Mathlib

/-!
Shallow embedding of `src/index.ts` of rbxts-pretty-react-hooks-browser.

The repository builds on two external collaborators:

* the reactive `Binding` primitive of `@rbxts/react` (`createBinding`,
  `joinBindings`, `Binding.map`), and
* the `debounce` scheduler of `@rbxts/set-timeout`.

Bindings are embedded as read functions over an abstract world state `σ`:
a binding's current value is what `getValue` returns in the current world,
`createBinding v` yields the constant binding, `Binding.map` post-composes,
and `joinBindings` reads every source in the same world (so a joined tuple
is never partially updated).  The debounce scheduler is not part of this
repository's sources, so it is modelled from the spec (see the `debounce`
section below).

The TypeScript functions of `src/index.ts` are translated one by one,
keeping their names.  The variadic, heterogeneous signatures
(`composeBindings(...bindings, combiner)`) are embedded with a homogeneous
value type and an explicit argument list, which is what every claim
instantiates them with.
-/

namespace RPH

/-- A reactive value container (`Binding<T>` of `@rbxts/react`): reading its
current value is a function of the ambient world state `σ`. -/
structure Binding (σ : Type u) (α : Type v) where
  getValue : σ → α

/-- Embeds `createBinding(value)` of `@rbxts/react`: the constant binding holding
`value` (only the binding itself is embedded; the returned setter is not
used by this repository). -/
def createBinding (v : α) : Binding σ α :=
  ⟨fun _ => v⟩

/-- Embeds `binding.map(callback)` of `@rbxts/react`: a derived binding whose value
is `callback` of the source's current value. -/
def Binding.map (b : Binding σ α) (f : α → β) : Binding σ β :=
  ⟨fun s => f (b.getValue s)⟩

/-- Embeds `joinBindings(bindings)` of `@rbxts/react`: a binding whose value is the
list of all the sources' values, read in the same world state. -/
def joinBindings (bs : List (Binding σ α)) : Binding σ (List α) :=
  ⟨fun s => bs.map (fun b => b.getValue s)⟩

/-- Embeds `Bindable<T> = Binding<T> | T` from `src/index.ts`: an input that is
either already a binding or a plain (constant, non-binding) value.  In this
typed embedding the `isBinding` runtime test of `src/index.ts:110` is the
case split on this sum (the untyped duck-typed test itself is embedded
separately below as `isBinding` on `JSValue`). -/
inductive Bindable (σ : Type u) (α : Type v) where
  | value (v : α)
  | binding (b : Binding σ α)

/-- Embeds `toBinding` from `src/index.ts:197`: if the input passes the is-a-binding
test it is returned unchanged, otherwise a new constant binding holding the
input is created via `createBinding`. -/
def toBinding : Bindable σ α → Binding σ α
  | .binding b => b
  | .value v => createBinding v

/-- Embeds `mapBinding` from `src/index.ts:179`: a binding input is mapped through
`callback`; a plain value is passed to `callback` once and the result is
wrapped as a constant binding. -/
def mapBinding (binding : Bindable σ α) (callback : α → β) : Binding σ β :=
  match binding with
  | .binding b => b.map callback
  | .value v => createBinding (callback v)

/-- Embeds `composeBindings` from `src/index.ts:94`: the combiner is the last
argument of the variadic call (`values.pop()`), every remaining input is
lifted with `toBinding`, and the result is `joinBindings(...).map(combiner)`.
Embedded with the inputs as an explicit list and the popped combiner as a
separate argument. -/
def composeBindings (values : List (Bindable σ α)) (combiner : List α → β) :
    Binding σ β :=
  (joinBindings (values.map toBinding)).map combiner

/-- Embeds `blend(...transparencies)` from `src/index.ts:72`: starts from `result = 1`,
multiplies `result` by `1 - transparency` for each argument in order, and
returns `1 - result`. -/
def blend (transparencies : List ℚ) : ℚ :=
  1 - transparencies.foldl (fun result transparency => result * (1 - transparency)) 1

/-- Embeds `lerp(a, b, alpha)` from `src/index.ts:128`. -/
def lerp (a b alpha : ℚ) : ℚ :=
  a + (b - a) * alpha

/-- Embeds `lerpBinding(binding, from, to)` from `src/index.ts:140`, at the numeric
instantiation (the `typeof from === "number"` branch; the claims are about
plain numbers, for which that branch is the one taken): it is exactly
`mapBinding` of the alpha input through `alpha ↦ lerp from to alpha`. -/
def lerpBinding (binding : Bindable σ ℚ) (fromVal toVal : ℚ) : Binding σ ℚ :=
  mapBinding binding (fun alpha => lerp fromVal toVal alpha)

/-- Embeds `map(value, fromMin, fromMax, toMin, toMax)` from `src/index.ts:162`:
`(value - fromMin) * (toMax - toMin) / (fromMax - fromMin) + toMin`, with the
division unguarded in the source; the embedding makes the division-by-zero
case explicit by returning `none` exactly when the divisor
`fromMax - fromMin` is zero. -/
def map (value fromMin fromMax toMin toMax : ℚ) : Option ℚ :=
  if fromMax - fromMin = 0 then none
  else some ((value - fromMin) * (toMax - toMin) / (fromMax - fromMin) + toMin)

/-!
Untyped model of JavaScript values, for the duck-typed `isBinding` test of
`src/index.ts:110`.  An object carries, besides the names of the fields it
exposes, a provenance flag `bindingInstance` recording whether it was
actually produced by the binding library (`createBinding` / `map` /
`joinBindings`); the flag models object identity and is invisible to the
structural test, which reads field names only.
-/

/-- An untyped JavaScript value: `undefined`, `null`, a boolean, a number, a
string, or an object with a set of field names and a provenance flag saying
whether it is a genuine binding instance. -/
inductive JSValue where
  | undef
  | null
  | boolean (b : Bool)
  | number (n : Int)
  | string (s : String)
  | object (bindingInstance : Bool) (fields : List String)
deriving DecidableEq

/-- JavaScript truthiness (`!!value`): `undefined`, `null`, `false`, `0` and
`""` are falsy; every object is truthy. -/
def JSValue.truthy : JSValue → Bool
  | .undef => false
  | .null => false
  | .boolean b => b
  | .number n => n != 0
  | .string s => s != ""
  | .object _ _ => true

/-- Embeds `typeof value === "object"`: true for objects and for `null` (a JavaScript
quirk; the `!!value` guard in `isBinding` is what excludes `null`). -/
def JSValue.typeofObject : JSValue → Bool
  | .null => true
  | .object _ _ => true
  | _ => false

/-- Embeds `"name" in value`: whether an object exposes a field with this name. -/
def JSValue.hasField : JSValue → String → Bool
  | .object _ fields, name => fields.contains name
  | _, _ => false

/-- Ground truth of the provenance flag: whether the value is an object that
was genuinely produced by the binding library. -/
def JSValue.isBindingInstance : JSValue → Bool
  | .object b _ => b
  | _ => false

/-- Embeds `isBinding(value)` from `src/index.ts:110`:
`!!value && typeof value === "object" && "getValue" in value && "map" in value`. -/
def isBinding (value : JSValue) : Bool :=
  value.truthy && value.typeofObject && value.hasField "getValue" && value.hasField "map"

/-!
The debounce scheduler.  `useDebounceCallback` in `src/index.ts:226`
delegates to `debounce` of `@rbxts/set-timeout`, which is not part of this
repository's sources; the scheduler's state machine is therefore modelled
from the spec (§4.4): states Idle (no timer) and Pending (one timer armed
with the most recent args), `run` records the args and (re)schedules, firing
the leading edge when enabled and the instance was Idle, each `run` resets
the wait window unless the `maxWait` bound elapses first, `cancel` discards
the timer and pending args leaving the last result untouched, `flush`
invokes immediately with the pending args, and `pending` reports whether a
timer is live.  Time is modelled by integer instants passed explicitly to
`run` and to the timer-expiry transition.
-/

/-- Embeds `DebounceOptions` of `@rbxts/set-timeout`: an optional `maxWait` bound
and the `leading`/`trailing` edge flags (defaults: debounce fires on the
trailing edge only). -/
structure DebounceOptions where
  maxWait : Option Int := none
  leading : Bool := false
  trailing : Bool := true

/-- Embeds `UseDebounceOptions` from `src/index.ts:39`: extends `DebounceOptions`
with the `wait` delay that `useDebounceCallback` passes positionally to
`debounce`. -/
structure UseDebounceOptions extends DebounceOptions where
  wait : Int := 0

/-- Modelled from the spec (§4.4): the per-instance state of a debounce
scheduler — the most recent call's pending args, the armed timer's deadline
(`none` when Idle; at most one timer is live), the instant of the first call
of the current burst (for `maxWait`), and the last computed result. -/
structure DebounceState (α : Type u) (β : Type v) where
  pendingArgs : Option α := none
  deadline : Option Int := none
  burstStart : Option Int := none
  lastResult : Option β := none

/-- Modelled from the spec (§4.4 `run`): records `args` as the pending call's
arguments (overwriting any previous ones) and (re)schedules the invocation —
the deadline is `now + wait`, capped at `burstStart + maxWait` when `maxWait`
is configured.  If `leading` is enabled and the instance was Idle the
callback is invoked immediately with these args.  Returns the last computed
result (from the most recent completed invocation) together with the new
state. -/
def debounceRun (wait : Int) (opts : DebounceOptions) (cb : α → β) (now : Int)
    (args : α) (s : DebounceState α β) : Option β × DebounceState α β :=
  let wasIdle := s.deadline.isNone
  let burst := s.burstStart.getD now
  let dl := match opts.maxWait with
    | some mw => min (now + wait) (burst + mw)
    | none => now + wait
  let s1 : DebounceState α β :=
    { s with pendingArgs := some args, burstStart := some burst, deadline := some dl }
  if opts.leading && wasIdle then
    let r := cb args
    (some r, { s1 with lastResult := some r })
  else
    (s1.lastResult, s1)

/-- Modelled from the spec (§4.4 timer expiry): once the armed deadline is
reached, the trailing edge invokes the callback with the pending args (when
`trailing` is enabled and args are pending), records the result, and returns
to Idle; before the deadline nothing happens.  The first component reports
the invocation's result, `none` when no invocation occurred. -/
def debounceFire (opts : DebounceOptions) (cb : α → β) (now : Int)
    (s : DebounceState α β) : Option β × DebounceState α β :=
  match s.deadline with
  | none => (none, s)
  | some dl =>
    if now < dl then (none, s)
    else
      match s.pendingArgs, opts.trailing with
      | some args, true =>
        let r := cb args
        (some r, { pendingArgs := none, deadline := none, burstStart := none,
                   lastResult := some r })
      | _, _ =>
        (none, { s with pendingArgs := none, deadline := none, burstStart := none })

/-- Modelled from the spec (§4.4 `cancel`): discards the live timer and the
pending args and returns to Idle; the last result is left untouched. -/
def debounceCancel (s : DebounceState α β) : DebounceState α β :=
  { s with pendingArgs := none, deadline := none, burstStart := none }

/-- Modelled from the spec (§4.4 `flush`): if Pending, invokes the callback
immediately with the pending args, records the result, discards the timer
and returns to Idle; if Idle it is a no-op.  Returns the last result in
either case. -/
def debounceFlush (cb : α → β) (s : DebounceState α β) :
    Option β × DebounceState α β :=
  match s.deadline, s.pendingArgs with
  | some _, some args =>
    let r := cb args
    (some r, { pendingArgs := none, deadline := none, burstStart := none,
               lastResult := some r })
  | _, _ => (s.lastResult, s)

/-- Modelled from the spec (§4.4 `pending`): true iff a timer is live. -/
def debouncePending (s : DebounceState α β) : Bool :=
  s.deadline.isSome

/-- Embeds `UseDebounceResult` from `src/index.ts:46`: the control surface returned
to the caller — the debounced function `run` and the `cancel`, `flush` and
`pending` controls. -/
structure UseDebounceResult (α : Type u) (β : Type v) where
  run : Int → α → DebounceState α β → Option β × DebounceState α β
  cancel : DebounceState α β → DebounceState α β
  flush : DebounceState α β → Option β × DebounceState α β
  pending : DebounceState α β → Bool

/-- Modelled from the spec: `debounce(callback, wait, options)` of
`@rbxts/set-timeout` builds the scheduler's control surface over the state
machine above, with the explicitly passed `wait` taking effect. -/
def debounce (cb : α → β) (wait : Int) (options : DebounceOptions) :
    UseDebounceResult α β :=
  { run := debounceRun wait options cb
    cancel := debounceCancel
    flush := debounceFlush cb
    pending := debouncePending }

/-- The hook instance created by `useDebounceCallback`: the returned control
surface together with the cleanup that `useUnmountEffect` registers to run
when the owning component unmounts (`src/index.ts:242`:
`useUnmountEffect(() => debounced.cancel())`). -/
structure UseDebounceHook (α : Type u) (β : Type v) where
  result : UseDebounceResult α β
  unmountCleanup : DebounceState α β → DebounceState α β

/-- Embeds `useDebounceCallback(callback, options)` from `src/index.ts:226`: wraps
`callback` (via a latest-value ref, which for a fixed callback is the
callback itself), constructs the debounced function as
`debounce(fn, options.wait, options)`, registers `debounced.cancel` as the
unmount cleanup, and returns the `{run, cancel, flush, pending}` record.
The `Except` layer makes the construction-time fault channel of the spec's
§7 explicit: the source performs no validation of `options` and has no
failure path, so construction always returns `.ok`. -/
def useDebounceCallback (callback : α → β) (options : UseDebounceOptions) :
    Except String (UseDebounceHook α β) :=
  let debounced := debounce callback options.wait options.toDebounceOptions
  .ok { result := debounced, unmountCleanup := debounced.cancel }

/-- Whether an `Except` value is a success. -/
def exceptOk : Except ε γ → Bool
  | .ok _ => true
  | .error _ => false

/-- Concrete callback used to instantiate the debounce theorems. -/
def debounceCbEx : Int → Int := fun n => n + 1

/-- Concrete options used to instantiate the debounce theorems. -/
def debounceOptsEx : UseDebounceOptions := {}

/-- The hook instance that `useDebounceCallback debounceCbEx debounceOptsEx`
constructs. -/
def debounceHookEx : UseDebounceHook Int Int :=
  { result := debounce debounceCbEx debounceOptsEx.wait debounceOptsEx.toDebounceOptions
    unmountCleanup :=
      (debounce debounceCbEx debounceOptsEx.wait debounceOptsEx.toDebounceOptions).cancel }

/-- A concrete pending scheduler state. -/
def debounceStateEx : DebounceState Int Int :=
  { pendingArgs := some 1, deadline := some 10, burstStart := some 0, lastResult := none }

/-!
Theorems about the claims.
-/

/-- C1: for every list of constant (non-binding) inputs and every combiner,
`composeBindings` yields a binding whose value is the combiner applied to the
constants positionally, in the order given; in particular
`composeBindings(3, binding-of-4, (a, b) => a + b)` yields a binding whose
initial value is `7`, and when the second binding's source updates to `10`
the composed value becomes `13`. -/
theorem composeBindings_constants :
    (∀ (σ α β : Type) (consts : List α) (combiner : List α → β) (s : σ),
       (composeBindings (consts.map Bindable.value) combiner).getValue s =
         combiner consts) ∧
    (∀ (σ : Type) (b : Binding σ Int) (s : σ),
       (composeBindings [Bindable.value 3, Bindable.binding b]
         (fun vs => vs.foldl (· + ·) 0)).getValue s = 3 + b.getValue s) ∧
    (composeBindings [Bindable.value 3, Bindable.binding (⟨fun n => n⟩ : Binding Int Int)]
      (fun vs => vs.foldl (· + ·) 0)).getValue 4 = 7 ∧
    (composeBindings [Bindable.value 3, Bindable.binding (⟨fun n => n⟩ : Binding Int Int)]
      (fun vs => vs.foldl (· + ·) 0)).getValue 10 = 13 := by
  refine ⟨?_, ?_, by decide, by decide⟩
  · intro σ α β consts combiner s
    simp [composeBindings, joinBindings, Binding.map, toBinding, createBinding,
      List.map_map, Function.comp_def]
  · intro σ b s
    simp [composeBindings, joinBindings, Binding.map, toBinding, createBinding]

/-- C2: for a plain value `x`, `mapBinding(x, f)` is the constant binding
holding `f x` (so `f` is evaluated once, at construction, and the result
never changes with the world state); for a binding input the result tracks
`f` of the source's current value; in particular `mapBinding(5, f)` equals a
constant binding with value `f 5`. -/
theorem mapBinding_spec :
    (∀ (σ α β : Type) (x : α) (f : α → β),
       mapBinding (Bindable.value x : Bindable σ α) f = createBinding (f x)) ∧
    (∀ (σ α β : Type) (x : α) (f : α → β) (s s' : σ),
       (mapBinding (Bindable.value x : Bindable σ α) f).getValue s = f x ∧
       (mapBinding (Bindable.value x : Bindable σ α) f).getValue s =
         (mapBinding (Bindable.value x : Bindable σ α) f).getValue s') ∧
    (∀ (σ α β : Type) (b : Binding σ α) (f : α → β) (s : σ),
       (mapBinding (Bindable.binding b) f).getValue s = f (b.getValue s)) ∧
    (∀ f : Int → Int,
       mapBinding (Bindable.value 5 : Bindable Unit Int) f = createBinding (f 5)) :=
  ⟨fun _ _ _ _ _ => rfl, fun _ _ _ _ _ _ _ => ⟨rfl, rfl⟩,
   fun _ _ _ _ _ _ => rfl, fun _ => rfl⟩

/-- C3: `toBinding` returns a binding input itself, unchanged; a non-binding
input is wrapped as the newly constructed constant binding holding it
(`createBinding`); and `toBinding` is idempotent: re-lifting the binding
returned by `toBinding` returns that very binding. -/
theorem toBinding_spec :
    (∀ (σ α : Type) (b : Binding σ α), toBinding (Bindable.binding b) = b) ∧
    (∀ (σ α : Type) (v : α),
       toBinding (Bindable.value v : Bindable σ α) = createBinding v) ∧
    (∀ (σ α : Type) (v : α) (s : σ),
       (toBinding (Bindable.value v : Bindable σ α)).getValue s = v) ∧
    (∀ (σ α : Type) (x : Bindable σ α),
       toBinding (Bindable.binding (toBinding x)) = toBinding x) := by
  refine ⟨fun _ _ _ => rfl, fun _ _ _ => rfl, fun _ _ _ _ => rfl, ?_⟩
  intro σ α x
  cases x <;> rfl

/-- C5: for a plain (unclamped) number `alpha` and numbers `from`, `to`,
`lerpBinding(alpha, from, to)` is a constant binding whose value is
`from + (to - from) * alpha`; and `lerpBinding` is exactly `mapBinding` of
the alpha input through the linear-interpolation function, carrying no
independent state. -/
theorem lerpBinding_spec :
    (∀ (σ : Type) (alpha fromVal toVal : ℚ) (s : σ),
       (lerpBinding (Bindable.value alpha : Bindable σ ℚ) fromVal toVal).getValue s =
         fromVal + (toVal - fromVal) * alpha) ∧
    (∀ (σ : Type) (binding : Bindable σ ℚ) (fromVal toVal : ℚ),
       lerpBinding binding fromVal toVal =
         mapBinding binding (fun alpha => lerp fromVal toVal alpha)) :=
  ⟨fun _ _ _ _ _ => rfl, fun _ _ _ _ => rfl⟩

/-- The running fold of `blend` multiplies the accumulator by the product of
the inverted transparencies. -/
theorem blend_foldl (ts : List ℚ) (a : ℚ) :
    ts.foldl (fun result transparency => result * (1 - transparency)) a =
      a * (ts.map (fun t => 1 - t)).prod := by
  induction ts generalizing a with
  | nil => simp
  | cons t ts ih => simp [ih, mul_assoc]

/-- C9: `blend` equals one minus the product of the inverted transparencies;
hence `blend` of the empty list is `0`, `blend` of a single argument is that
argument, `blend` is invariant under permutation of its arguments, and `0`
is an identity element (`blend(0, x) = x`). -/
theorem blend_spec :
    (∀ ts : List ℚ, blend ts = 1 - (ts.map (fun t => 1 - t)).prod) ∧
    blend [] = 0 ∧
    (∀ t : ℚ, blend [t] = t) ∧
    (∀ ts ts' : List ℚ, ts.Perm ts' → blend ts = blend ts') ∧
    (∀ x : ℚ, blend [0, x] = x) := by
  have key : ∀ ts : List ℚ, blend ts = 1 - (ts.map (fun t => 1 - t)).prod :=
    fun ts => by rw [blend, blend_foldl, one_mul]
  refine ⟨key, by simp [key], fun t => by simp [key], ?_, fun x => by simp [key]⟩
  intro ts ts' h
  rw [key, key, ((h.map (fun t => 1 - t)).prod_eq : _)]

/-- C9 witness: `blend` at the concrete permutation `[1, 2]`, `[2, 1]`. -/
theorem blend_spec_witness : blend [(1 : ℚ), 2] = blend [2, 1] :=
  blend_spec.2.2.2.1 [1, 2] [2, 1] (List.Perm.swap 2 1 [])

/-- C10: whenever `fromMax ≠ fromMin` the division of `map` is well-defined
and the input-range endpoints are sent to the output-range endpoints, while
for `fromMax = fromMin` the unguarded division by `fromMax - fromMin` hits
the division-by-zero case. -/
theorem map_endpoints :
    (∀ fromMin fromMax toMin toMax : ℚ, fromMax ≠ fromMin →
       map fromMin fromMin fromMax toMin toMax = some toMin ∧
       map fromMax fromMin fromMax toMin toMax = some toMax) ∧
    (∀ value fromMin toMin toMax : ℚ,
       map value fromMin fromMin toMin toMax = none) := by
  refine ⟨?_, fun value fromMin toMin toMax => by simp [map]⟩
  intro fromMin fromMax toMin toMax h
  have hd : fromMax - fromMin ≠ 0 := sub_ne_zero.mpr h
  constructor
  · simp [map, hd]
  · rw [map, if_neg hd, mul_div_cancel_left₀ _ hd, sub_add_cancel]

/-- C10 witness: `map` at the concrete ranges `[0, 1] → [10, 20]`. -/
theorem map_endpoints_witness :
    map 0 0 1 10 20 = some 10 ∧ map 1 0 1 10 20 = some 20 :=
  map_endpoints.1 0 1 10 20 (by norm_num)

/-- C4 counterexample: a plain object that is not a binding instance but
coincidentally exposes fields named `getValue` and `map` is classified as a
binding by `isBinding`, so the claim that the test rejects such objects is
false. -/
theorem isBinding_false_positive :
    JSValue.isBindingInstance (JSValue.object false ["getValue", "map"]) = false ∧
    isBinding (JSValue.object false ["getValue", "map"]) = true := by
  exact ⟨rfl, rfl⟩

/-- C4 (amended): `isBinding` is structural duck-typing, not a marker
capability: it returns true for exactly the objects whose fields include
both `getValue` and `map` — regardless of whether they are genuine binding
instances — and false for every non-object value. -/
theorem isBinding_duck_typing :
    (∀ (marker : Bool) (fields : List String),
       isBinding (JSValue.object marker fields) =
         (fields.contains "getValue" && fields.contains "map")) ∧
    (∀ v : JSValue, (∀ marker fields, v ≠ JSValue.object marker fields) →
       isBinding v = false) := by
  refine ⟨fun marker fields => by
    simp [isBinding, JSValue.truthy, JSValue.typeofObject, JSValue.hasField], ?_⟩
  intro v h
  cases v with
  | object m fs => exact absurd rfl (h m fs)
  | undef => rfl
  | null => rfl
  | boolean b => simp [isBinding, JSValue.truthy, JSValue.typeofObject]
  | number n => simp [isBinding, JSValue.typeofObject]
  | string s => simp [isBinding, JSValue.typeofObject]

/-- C4 witness: the amended characterization at the concrete value `null`,
which is `typeof "object"` but falsy, so `isBinding` rejects it. -/
theorem isBinding_duck_typing_witness : isBinding JSValue.null = false :=
  isBinding_duck_typing.2 JSValue.null (fun _ _ h => JSValue.noConfusion h)

/-- C6 counterexample: with `wait = -1` and `maxWait = -2` (both negative,
and `maxWait < wait`), `useDebounceCallback` constructs the scheduler
without reporting anything, and the scheduler then accepts `run`, which
schedules an invocation — so nothing about the invalid configuration is
detected at construction time. -/
theorem useDebounceCallback_accepts_invalid_options :
    exceptOk (useDebounceCallback (fun n : Int => n + 1)
      { wait := -1, maxWait := some (-2) }) = true ∧
    (∃ hook, useDebounceCallback (fun n : Int => n + 1)
        { wait := -1, maxWait := some (-2) } = Except.ok hook ∧
      debouncePending ((hook.result.run 0 5 {}).snd) = true ∧
      (hook.result.run 0 5 {}).fst = none) :=
  ⟨rfl, ⟨_, rfl, rfl, rfl⟩⟩

/-- C6 (amended): `useDebounceCallback` performs no validation of its
configuration: construction succeeds for every options record, including
values outside the valid domain, and no misuse is reported at construction
time. -/
theorem useDebounceCallback_never_rejects :
    ∀ (α β : Type) (callback : α → β) (options : UseDebounceOptions),
      exceptOk (useDebounceCallback callback options) = true ∧
      ∃ hook, useDebounceCallback callback options = Except.ok hook :=
  fun _ _ _ _ => ⟨rfl, ⟨_, rfl⟩⟩

/-- C7: once the cleanup that `useDebounceCallback` registers for unmount has
run, no invocation is pending and timer expiry at any later instant invokes
nothing — the wrapped callback never fires after teardown. -/
theorem useDebounceCallback_unmount_cancels :
    ∀ (α β : Type) (callback : α → β) (options : UseDebounceOptions)
      (hook : UseDebounceHook α β) (s : DebounceState α β) (t : Int),
      useDebounceCallback callback options = Except.ok hook →
      debouncePending (hook.unmountCleanup s) = false ∧
      debounceFire options.toDebounceOptions callback t (hook.unmountCleanup s) =
        (none, hook.unmountCleanup s) := by
  intro α β callback options hook s t h
  simp only [useDebounceCallback, debounce] at h
  injection h with h
  subst h
  exact ⟨rfl, rfl⟩

/-- C7 witness: the concrete hook, cancelled by its unmount cleanup while a
call was pending, is idle and its timer expiry at instant 100 fires
nothing. -/
theorem useDebounceCallback_unmount_cancels_witness :
    debouncePending (debounceHookEx.unmountCleanup debounceStateEx) = false ∧
    debounceFire debounceOptsEx.toDebounceOptions debounceCbEx 100
        (debounceHookEx.unmountCleanup debounceStateEx) =
      (none, debounceHookEx.unmountCleanup debounceStateEx) :=
  useDebounceCallback_unmount_cancels Int Int debounceCbEx debounceOptsEx
    debounceHookEx debounceStateEx 100 rfl

/-- C8: every call to the debounced `run` returns the last completed
invocation's result (the `lastResult` slot as left after any synchronous
leading-edge invocation of this very call); in particular, when the call is
merely scheduled for later (no leading edge fires), it returns the result
recorded before the call, not a value produced by the current call. -/
theorem useDebounceCallback_run_returns_last_result :
    ∀ (α β : Type) (callback : α → β) (options : UseDebounceOptions)
      (hook : UseDebounceHook α β) (now : Int) (args : α)
      (s : DebounceState α β),
      useDebounceCallback callback options = Except.ok hook →
      (hook.result.run now args s).fst = ((hook.result.run now args s).snd).lastResult ∧
      ((options.leading && s.deadline.isNone) = false →
        (hook.result.run now args s).fst = s.lastResult) := by
  intro α β callback options hook now args s h
  simp only [useDebounceCallback, debounce] at h
  injection h with h
  subst h
  simp only [debounceRun]
  split
  next hcond =>
    exact ⟨rfl, fun hfalse => by rw [hfalse] at hcond; exact Bool.noConfusion hcond⟩
  next => exact ⟨rfl, fun _ => rfl⟩

/-- C8 witness: for the concrete hook (trailing-only defaults), a first `run`
at instant 0 is merely scheduled and returns the prior last result,
`none`. -/
theorem useDebounceCallback_run_returns_last_result_witness :
    (debounceHookEx.result.run 0 5 {}).fst = none :=
  (useDebounceCallback_run_returns_last_result Int Int debounceCbEx debounceOptsEx
    debounceHookEx 0 5 {} rfl).2 rfl

end RPH
